import Mathlib

/-!
Verification of the family-finance-dashboard ledger pipeline
(`src/streamlit_app.py`): loader schema check and coercion, per-row
transaction bucketing, metric totals, cumulative cash-flow trend, and the
append/submit handler with its cache-invalidation discipline.

Shallow embedding conventions: a spreadsheet cell is a `Cell` carrying its
parse outcome (`pd.to_datetime(..., errors=coerce)` succeeds exactly on
`Cell.date`, `pd.to_numeric(..., errors=coerce)` exactly on `Cell.num`);
monetary values and gram quantities are rationals; dates are integers
(ordinal day numbers). `df.sort_values` is modelled at the specification
level, by the guarantees pandas documents for its defaults: the result
is a permutation of the rows whose dates are in ascending order with
missing dates placed last (`na_position=last`); the default
`kind=quicksort` is documented as unstable, so the relative order of
rows with equal dates is left unspecified and the model admits every
such permutation.
-/

namespace FamilyFinance

/-- A raw spreadsheet cell, carrying its parse outcome: `date d` is a cell
`pd.to_datetime` parses to day `d`; `num q` is a cell `pd.to_numeric`
parses to `q`; `text`/`blank` parse as neither. -/
inductive Cell where
  | date (d : ℤ)
  | num (q : ℚ)
  | text (s : String)
  | blank
deriving DecidableEq

/-- `pd.to_datetime(x, errors=coerce)`: unparseable dates become missing
(NaT), never an exception (src line 115). -/
def toDatetimeCoerce : Cell → Option ℤ
  | .date d => some d
  | _ => none

/-- `pd.to_numeric(x, errors=coerce)`: unparseable numbers become NaN,
never an exception (src lines 116-117). -/
def toNumericCoerce : Cell → Option ℚ
  | .num q => some q
  | _ => none

/-- One raw record from `sheet.get_all_records()`: the five column values
of a row, before coercion. -/
structure RawRow where
  tanggal : Cell
  tipe : String
  keterangan : String
  jumlah : Cell
  gramEmas : Cell
deriving DecidableEq

/-- The raw record set: the column names of the header row plus the data
rows (`pd.DataFrame(data)`, src line 98). -/
structure RawSheet where
  cols : List String
  rows : List RawRow
deriving DecidableEq

/-- One processed ledger row after coercion, with the raw type string
preserved (src lines 114-117). -/
structure Row where
  tanggal : Option ℤ
  tipe : String
  keterangan : String
  jumlah : ℚ
  gramEmas : ℚ
deriving DecidableEq

/-- The required column names checked by `load_data` (src line 107). -/
def requiredCols : List String :=
  ["Tanggal", "Tipe Transaksi", "Keterangan", "Jumlah (Rp)", "Gram Emas"]

/-- Per-row coercion performed by `load_data` (src lines 115-117):
`Tanggal` coerce-or-missing, `Jumlah (Rp)` and `Gram Emas`
coerce-then-`fillna(0)`. -/
def processRow (r : RawRow) : Row :=
  ⟨toDatetimeCoerce r.tanggal, r.tipe, r.keterangan,
   (toNumericCoerce r.jumlah).getD 0, (toNumericCoerce r.gramEmas).getD 0⟩

/-- Result of `load_data`: the processed ledger, plus `some c` when the
schema check failed on missing column `c` (`st.error` + empty frame). -/
structure LoadResult where
  ledger : List Row
  error : Option String
deriving DecidableEq

/-- `load_data` (src lines 93-125): empty input returns an empty frame
with no error; otherwise the first missing required column aborts with a
schema error and an empty frame; otherwise every row is coerced. -/
def load_data (sheet : RawSheet) : LoadResult :=
  if sheet.rows.isEmpty then ⟨[], none⟩
  else
    match requiredCols.find? (fun c => !(sheet.cols.contains c)) with
    | some c => ⟨[], some c⟩
    | none => ⟨sheet.rows.map processRow, none⟩

/-- Derived column `Pemasukan` (src line 120). -/
def pemasukan (r : Row) : ℚ := if r.tipe = "Pemasukan" then r.jumlah else 0

/-- Derived column `Pengeluaran` (src line 121). -/
def pengeluaran (r : Row) : ℚ := if r.tipe = "Pengeluaran Harian" then r.jumlah else 0

/-- Derived column `Investasi Saham` (src line 122). -/
def investasiSaham (r : Row) : ℚ := if r.tipe = "Tabungan Saham" then r.jumlah else 0

/-- Derived column `Beli Emas (Rp)` (src line 123). -/
def beliEmasRp (r : Row) : ℚ := if r.tipe = "Beli Emas" then r.jumlah else 0

/-- The four derived bucket amounts of a row, in source order. -/
def buckets (r : Row) : List ℚ := [pemasukan r, pengeluaran r, investasiSaham r, beliEmasRp r]

/-- Number of non-zero bucket amounts of a row. -/
def nonzeroBucketCount (r : Row) : Nat := (buckets r).countP (fun q => decide (q ≠ 0))

/-- `df[Pemasukan].sum()` (src line 133). -/
def total_pemasukan (df : List Row) : ℚ := (df.map pemasukan).sum

/-- `df[Pengeluaran].sum()` (src line 134). -/
def total_pengeluaran (df : List Row) : ℚ := (df.map pengeluaran).sum

/-- `df[Investasi Saham].sum()` (src line 135). -/
def total_tabungan_saham (df : List Row) : ℚ := (df.map investasiSaham).sum

/-- `df[Gram Emas].sum()` (src line 136). -/
def total_gram_emas (df : List Row) : ℚ := (df.map (fun r => r.gramEmas)).sum

/-- `saldo_cashflow = total_pemasukan - total_pengeluaran` (src line 138). -/
def saldo_cashflow (df : List Row) : ℚ := total_pemasukan df - total_pengeluaran df

/-- `total_kekayaan` (src line 140), with the hard-coded Rp 900000/gram
gold estimate. -/
def total_kekayaan (df : List Row) : ℚ :=
  saldo_cashflow df + total_tabungan_saham df + total_gram_emas df * 900000

/-- Date comparison used by `df.sort_values(Tanggal)`: ascending with
missing dates (NaT) placed last (`na_position=last` default). -/
def dateLeOpt : Option ℤ → Option ℤ → Bool
  | _, none => true
  | none, some _ => false
  | some a, some b => a ≤ b

/-- Row comparison for the trend sort: by date, missing dates last. -/
def rowLe (a b : Row) : Bool := dateLeOpt a.tanggal b.tanggal

/-- Specification-level model of `df.sort_values(Tanggal)` (src line
257): pandas documents that the result is a permutation of the rows
whose dates are in ascending order with missing dates (NaT) placed last
(`na_position=last` default). The default `kind=quicksort` is documented
as unstable, so the relative order of rows with equal dates is
unspecified and every such permutation is an admissible output. -/
def IsSortValuesOutput (df s : List Row) : Prop :=
  s.Perm df ∧ s.Pairwise (fun a b => rowLe a b = true)

/-- `Cashflow Harian = Pemasukan - Pengeluaran` per row (src line 258). -/
def cashflowHarian (r : Row) : ℚ := pemasukan r - pengeluaran r

/-- `cumsum` of the daily cashflow column (src line 259), paired with the
row it annotates, starting from accumulator `acc`. -/
def cumsumFrom (acc : ℚ) : List Row → List (Row × ℚ)
  | [] => []
  | r :: rs => (r, acc + cashflowHarian r) :: cumsumFrom (acc + cashflowHarian r) rs

/-- `df_trend` (src lines 257-259) as a function of the sorted frame `s`
returned by the sort: each row annotated with the running cumulative
cashflow. -/
def df_trendOn (s : List Row) : List (Row × ℚ) := cumsumFrom 0 s

/-- The plotted trend (src lines 261-264) as a function of the sorted
frame: `dropna(subset=[Tanggal])` then take the `(Tanggal, Kekayaan
Kumulatif)` pairs. -/
def cumulativeTrendOn (s : List Row) : List (ℤ × ℚ) :=
  (df_trendOn s).filterMap (fun p => (p.1.tanggal).map (fun d => (d, p.2)))

/-! The append path: the submit handler (src lines 203-225). -/

/-- A transaction draft as assembled by the input form. -/
structure Draft where
  tanggal : ℤ
  tipe : String
  keterangan : String
  jumlah : ℚ
  gramEmas : ℚ
deriving DecidableEq

/-- The form input boundary (src lines 186-199): `gram_emas` starts at 0
and is only replaced by the gold-gram input when the selected type is
`Beli Emas`. -/
def mkDraft (tanggal : ℤ) (tipe : String) (jumlah : ℚ) (gramInput : ℚ)
    (keterangan : String) : Draft :=
  ⟨tanggal, tipe, keterangan, jumlah, if tipe = "Beli Emas" then gramInput else 0⟩

/-- `row_data` (src lines 209-215): the draft serialized in the fixed
five-column order for `sheet.append_row`. -/
def serializeDraft (d : Draft) : List Cell :=
  [Cell.date d.tanggal, Cell.text d.tipe, Cell.text d.keterangan,
   Cell.num d.jumlah, Cell.num d.gramEmas]

/-- Outcome of one submit: validation rejection (`st.warning`), success
(`st.success` with the type and amount echoed back), or a write error
(`st.error` in the except branch). -/
inductive SubmitResult where
  | rejected
  | success (tipe : String) (jumlah : ℚ)
  | writeError
deriving DecidableEq

/-- The state the submit handler can touch: the external ledger store
contents and the validity of the cached `load_data` ledger slot. -/
structure AppendState where
  store : List (List Cell)
  cacheValid : Bool
deriving DecidableEq

/-- The submit handler (src lines 203-225). `writeOk` models whether
`sheet.append_row` succeeds or raises. On a zero-amount zero-gram draft
the handler warns and performs no I/O; on a successful write it appends
the serialized row and clears the `load_data` cache; on a raised write it
reports the error and leaves everything untouched (no retry). -/
def handleSubmit (writeOk : Bool) (d : Draft) (s : AppendState) :
    SubmitResult × AppendState :=
  if d.jumlah = 0 ∧ d.gramEmas = 0 then (.rejected, s)
  else if writeOk then
    (.success d.tipe d.jumlah, ⟨s.store ++ [serializeDraft d], false⟩)
  else (.writeError, s)

/-! Concrete inputs used by witnesses and counterexamples. -/

/-- Scenario A input: one income row of Rp 5000000 with zero gold grams. -/
def scenarioA : RawSheet :=
  ⟨requiredCols, [⟨Cell.date 20240101, "Pemasukan", "Salary", Cell.num 5000000, Cell.num 0⟩]⟩

/-- A raw row with a canonical type but an unparseable amount. -/
def rawC1 : RawRow := ⟨Cell.text "2024-13-99", "Pemasukan", "x", Cell.text "abc", Cell.num 0⟩

/-- The processed form of `rawC1`. -/
def rowC1 : Row := processRow rawC1

/-- A well-formed sheet containing only `rawC1`. -/
def sheetC1 : RawSheet := ⟨requiredCols, [rawC1]⟩

/-- A well-formed sheet with unparseable date, amount and gram cells. -/
def sheetC3 : RawSheet :=
  ⟨requiredCols, [⟨Cell.text "notadate", "Pemasukan", "x", Cell.text "abc", Cell.blank⟩]⟩

/-- A non-empty sheet whose header lacks the `Gram Emas` column. -/
def sheetC4 : RawSheet :=
  ⟨["Tanggal", "Tipe Transaksi", "Keterangan", "Jumlah (Rp)"],
   [⟨Cell.date 0, "Pemasukan", "x", Cell.num 1, Cell.num 0⟩]⟩

/-- A concrete income row used to instantiate bucket lemmas. -/
def rowW : Row := ⟨some 0, "Pemasukan", "w", 5, 0⟩

/-- Case analysis of the four derived buckets: the bucket matching the
row type holds the coerced amount and the others are zero; a row of
non-canonical type has all four buckets zero. -/
theorem bucket_cases (r : Row) :
    (r.tipe = "Pemasukan" ∧ buckets r = [r.jumlah, 0, 0, 0]) ∨
    (r.tipe = "Pengeluaran Harian" ∧ buckets r = [0, r.jumlah, 0, 0]) ∨
    (r.tipe = "Tabungan Saham" ∧ buckets r = [0, 0, r.jumlah, 0]) ∨
    (r.tipe = "Beli Emas" ∧ buckets r = [0, 0, 0, r.jumlah]) ∨
    (¬(r.tipe = "Pemasukan" ∨ r.tipe = "Pengeluaran Harian" ∨ r.tipe = "Tabungan Saham" ∨
        r.tipe = "Beli Emas") ∧ buckets r = [0, 0, 0, 0]) := by
  by_cases h1 : r.tipe = "Pemasukan"
  · exact Or.inl ⟨h1, by simp [buckets, pemasukan, pengeluaran, investasiSaham, beliEmasRp, h1]⟩
  · by_cases h2 : r.tipe = "Pengeluaran Harian"
    · exact Or.inr (Or.inl ⟨h2, by
        simp [buckets, pemasukan, pengeluaran, investasiSaham, beliEmasRp, h2]⟩)
    · by_cases h3 : r.tipe = "Tabungan Saham"
      · exact Or.inr (Or.inr (Or.inl ⟨h3, by
          simp [buckets, pemasukan, pengeluaran, investasiSaham, beliEmasRp, h3]⟩))
      · by_cases h4 : r.tipe = "Beli Emas"
        · exact Or.inr (Or.inr (Or.inr (Or.inl ⟨h4, by
            simp [buckets, pemasukan, pengeluaran, investasiSaham, beliEmasRp, h4]⟩)))
        · refine Or.inr (Or.inr (Or.inr (Or.inr ⟨?_, ?_⟩)))
          · rintro (h | h | h | h) <;> [exact h1 h; exact h2 h; exact h3 h; exact h4 h]
          · simp [buckets, pemasukan, pengeluaran, investasiSaham, beliEmasRp, h1, h2, h3, h4]

/-- The non-zero count of a four-element bucket list whose only possibly
non-zero entry is `q`. -/
theorem countP_single_slot (q : ℚ) :
    (List.countP (fun x => decide (x ≠ 0)) [q, 0, 0, 0] = 1 ↔ q ≠ 0) ∧
    (List.countP (fun x => decide (x ≠ 0)) [0, q, 0, 0] = 1 ↔ q ≠ 0) ∧
    (List.countP (fun x => decide (x ≠ 0)) [0, 0, q, 0] = 1 ↔ q ≠ 0) ∧
    (List.countP (fun x => decide (x ≠ 0)) [0, 0, 0, q] = 1 ↔ q ≠ 0) := by
  by_cases hq : q = 0 <;> simp [List.countP, List.countP.go, hq]

/-- C1 counterexample: a loaded row whose type is the canonical
`Pemasukan` but whose amount cell was unparseable (coerced to 0) has all
four bucket amounts zero, so no bucket is non-zero. -/
theorem C1_counterexample :
    (load_data sheetC1).ledger = [rowC1] ∧ rowC1.tipe = "Pemasukan" ∧
    nonzeroBucketCount rowC1 = 0 := by decide

/-- C1 (amended): for every loaded ledger row, the bucket selected by the
type equals the row's coerced amount and the other three are zero — so
exactly one bucket is non-zero precisely when the coerced amount is
non-zero — and a row whose type is none of the four canonical values has
all four buckets zero. -/
theorem C1_amended_buckets (r : Row) :
    (r.tipe = "Pemasukan" → buckets r = [r.jumlah, 0, 0, 0]) ∧
    (r.tipe = "Pengeluaran Harian" → buckets r = [0, r.jumlah, 0, 0]) ∧
    (r.tipe = "Tabungan Saham" → buckets r = [0, 0, r.jumlah, 0]) ∧
    (r.tipe = "Beli Emas" → buckets r = [0, 0, 0, r.jumlah]) ∧
    ((r.tipe = "Pemasukan" ∨ r.tipe = "Pengeluaran Harian" ∨ r.tipe = "Tabungan Saham" ∨
        r.tipe = "Beli Emas") → (nonzeroBucketCount r = 1 ↔ r.jumlah ≠ 0)) ∧
    (¬(r.tipe = "Pemasukan" ∨ r.tipe = "Pengeluaran Harian" ∨ r.tipe = "Tabungan Saham" ∨
        r.tipe = "Beli Emas") → buckets r = [0, 0, 0, 0]) := by
  rcases bucket_cases r with ⟨ht, hb⟩ | ⟨ht, hb⟩ | ⟨ht, hb⟩ | ⟨ht, hb⟩ | ⟨ht, hb⟩
  · exact ⟨fun _ => hb,
      fun h => absurd (ht.symm.trans h) (by decide),
      fun h => absurd (ht.symm.trans h) (by decide),
      fun h => absurd (ht.symm.trans h) (by decide),
      fun _ => by unfold nonzeroBucketCount; rw [hb]; exact (countP_single_slot r.jumlah).1,
      fun h => absurd (Or.inl ht) h⟩
  · exact ⟨fun h => absurd (ht.symm.trans h) (by decide),
      fun _ => hb,
      fun h => absurd (ht.symm.trans h) (by decide),
      fun h => absurd (ht.symm.trans h) (by decide),
      fun _ => by unfold nonzeroBucketCount; rw [hb]; exact (countP_single_slot r.jumlah).2.1,
      fun h => absurd (Or.inr (Or.inl ht)) h⟩
  · exact ⟨fun h => absurd (ht.symm.trans h) (by decide),
      fun h => absurd (ht.symm.trans h) (by decide),
      fun _ => hb,
      fun h => absurd (ht.symm.trans h) (by decide),
      fun _ => by unfold nonzeroBucketCount; rw [hb]; exact (countP_single_slot r.jumlah).2.2.1,
      fun h => absurd (Or.inr (Or.inr (Or.inl ht))) h⟩
  · exact ⟨fun h => absurd (ht.symm.trans h) (by decide),
      fun h => absurd (ht.symm.trans h) (by decide),
      fun h => absurd (ht.symm.trans h) (by decide),
      fun _ => hb,
      fun _ => by unfold nonzeroBucketCount; rw [hb]; exact (countP_single_slot r.jumlah).2.2.2,
      fun h => absurd (Or.inr (Or.inr (Or.inr ht))) h⟩
  · exact ⟨fun h => absurd (Or.inl h) ht,
      fun h => absurd (Or.inr (Or.inl h)) ht,
      fun h => absurd (Or.inr (Or.inr (Or.inl h))) ht,
      fun h => absurd (Or.inr (Or.inr (Or.inr h))) ht,
      fun h => absurd h ht,
      fun _ => hb⟩

/-- C1 witness: the amended bucket theorem applied to a concrete income
row of amount 5. -/
theorem C1_amended_buckets_witness :
    buckets rowW = [rowW.jumlah, 0, 0, 0] ∧ (nonzeroBucketCount rowW = 1 ↔ rowW.jumlah ≠ 0) :=
  ⟨(C1_amended_buckets rowW).1 rfl, (C1_amended_buckets rowW).2.2.2.2.1 (Or.inl rfl)⟩

/-- C9: every bucket amount of a loaded row is either 0 or exactly the
row's coerced amount, at most one bucket is non-zero, and a row with
coerced amount 0 has all four buckets zero even when its type is
canonical. -/
theorem C9_bucket_invariant (r : Row) :
    (pemasukan r = 0 ∨ pemasukan r = r.jumlah) ∧
    (pengeluaran r = 0 ∨ pengeluaran r = r.jumlah) ∧
    (investasiSaham r = 0 ∨ investasiSaham r = r.jumlah) ∧
    (beliEmasRp r = 0 ∨ beliEmasRp r = r.jumlah) ∧
    nonzeroBucketCount r ≤ 1 ∧
    (r.jumlah = 0 → buckets r = [0, 0, 0, 0]) := by
  have hcount : ∀ q : ℚ,
      List.countP (fun x => decide (x ≠ 0)) [q, 0, 0, 0] ≤ 1 ∧
      List.countP (fun x => decide (x ≠ 0)) [0, q, 0, 0] ≤ 1 ∧
      List.countP (fun x => decide (x ≠ 0)) [0, 0, q, 0] ≤ 1 ∧
      List.countP (fun x => decide (x ≠ 0)) [0, 0, 0, q] ≤ 1 := by
    intro q; by_cases hq : q = 0 <;> simp [List.countP, List.countP.go, hq]
  have hget : ∀ a b c d : ℚ, buckets r = [a, b, c, d] →
      pemasukan r = a ∧ pengeluaran r = b ∧ investasiSaham r = c ∧ beliEmasRp r = d := by
    intro a b c d h
    unfold buckets at h
    simp only [List.cons.injEq, and_true] at h
    exact ⟨h.1, h.2.1, h.2.2.1, h.2.2.2⟩
  rcases bucket_cases r with ⟨ht, hb⟩ | ⟨ht, hb⟩ | ⟨ht, hb⟩ | ⟨ht, hb⟩ | ⟨ht, hb⟩ <;>
    obtain ⟨e1, e2, e3, e4⟩ := hget _ _ _ _ hb
  · exact ⟨Or.inr e1, Or.inl e2, Or.inl e3, Or.inl e4,
      by unfold nonzeroBucketCount; rw [hb]; exact (hcount r.jumlah).1,
      fun hj => by rw [hb, hj]⟩
  · exact ⟨Or.inl e1, Or.inr e2, Or.inl e3, Or.inl e4,
      by unfold nonzeroBucketCount; rw [hb]; exact (hcount r.jumlah).2.1,
      fun hj => by rw [hb, hj]⟩
  · exact ⟨Or.inl e1, Or.inl e2, Or.inr e3, Or.inl e4,
      by unfold nonzeroBucketCount; rw [hb]; exact (hcount r.jumlah).2.2.1,
      fun hj => by rw [hb, hj]⟩
  · exact ⟨Or.inl e1, Or.inl e2, Or.inl e3, Or.inr e4,
      by unfold nonzeroBucketCount; rw [hb]; exact (hcount r.jumlah).2.2.2,
      fun hj => by rw [hb, hj]⟩
  · exact ⟨Or.inl e1, Or.inl e2, Or.inl e3, Or.inl e4,
      by unfold nonzeroBucketCount; rw [hb]; simp [List.countP, List.countP.go],
      fun _ => hb⟩

/-- C9 witness: the invariant at a concrete income row of amount 5. -/
theorem C9_bucket_invariant_witness :
    (pemasukan rowW = 0 ∨ pemasukan rowW = rowW.jumlah) ∧ nonzeroBucketCount rowW ≤ 1 :=
  ⟨(C9_bucket_invariant rowW).1, (C9_bucket_invariant rowW).2.2.2.2.1⟩

/-- C3: with all required columns present, no row is dropped and no error
is reported — the ledger is exactly the row-wise coercion of the input —
and the coercion sends an unparseable date to a missing date and an
unparseable amount or gram quantity to 0. -/
theorem C3_coercion (sheet : RawSheet)
    (hcols : ∀ c ∈ requiredCols, sheet.cols.contains c = true) :
    (load_data sheet).error = none ∧
    (load_data sheet).ledger = sheet.rows.map processRow ∧
    (∀ r : RawRow, (∀ d : ℤ, r.tanggal ≠ Cell.date d) → (processRow r).tanggal = none) ∧
    (∀ r : RawRow, (∀ q : ℚ, r.jumlah ≠ Cell.num q) → (processRow r).jumlah = 0) ∧
    (∀ r : RawRow, (∀ q : ℚ, r.gramEmas ≠ Cell.num q) → (processRow r).gramEmas = 0) := by
  have hfind : requiredCols.find? (fun c => !(sheet.cols.contains c)) = none := by
    rw [List.find?_eq_none]
    intro c hcmem
    have := hcols c hcmem
    simp_all
  have hload : load_data sheet = ⟨sheet.rows.map processRow, none⟩ := by
    unfold load_data
    rw [hfind]
    cases hrows : sheet.rows with
    | nil => rfl
    | cons a l => rfl
  refine ⟨?_, ?_, ?_, ?_, ?_⟩
  · rw [hload]
  · rw [hload]
  · intro r hr
    show toDatetimeCoerce r.tanggal = none
    cases h : r.tanggal with
    | date d => exact absurd h (hr d)
    | num q => rfl
    | text s => rfl
    | blank => rfl
  · intro r hr
    show (toNumericCoerce r.jumlah).getD 0 = 0
    cases h : r.jumlah with
    | num q => exact absurd h (hr q)
    | date d => rfl
    | text s => rfl
    | blank => rfl
  · intro r hr
    show (toNumericCoerce r.gramEmas).getD 0 = 0
    cases h : r.gramEmas with
    | num q => exact absurd h (hr q)
    | date d => rfl
    | text s => rfl
    | blank => rfl

/-- C3 witness: the coercion theorem applied to a concrete sheet whose
single row has an unparseable date, amount and gram cell. -/
theorem C3_coercion_witness :
    (load_data sheetC3).error = none ∧
    (load_data sheetC3).ledger = sheetC3.rows.map processRow ∧
    (processRow ⟨Cell.text "notadate", "Pemasukan", "x", Cell.text "abc", Cell.blank⟩).jumlah
      = 0 :=
  ⟨(C3_coercion sheetC3 (by decide)).1, (C3_coercion sheetC3 (by decide)).2.1,
   (C3_coercion sheetC3 (by decide)).2.2.2.1
     ⟨Cell.text "notadate", "Pemasukan", "x", Cell.text "abc", Cell.blank⟩
     (fun q h => Cell.noConfusion h)⟩

/-- C4: a non-empty record set missing at least one required column is
loaded to an empty ledger together with a schema-error message naming a
required column, with no row processed and no exception. -/
theorem C4_schema_error (sheet : RawSheet) (hne : sheet.rows ≠ [])
    (hmiss : ∃ c ∈ requiredCols, sheet.cols.contains c = false) :
    (load_data sheet).ledger = [] ∧
    ∃ c ∈ requiredCols, (load_data sheet).error = some c := by
  have hsome : (requiredCols.find? (fun c => !(sheet.cols.contains c))).isSome := by
    rw [List.find?_isSome]
    obtain ⟨c, hcm, hcc⟩ := hmiss
    refine ⟨c, hcm, ?_⟩
    simp only [hcc, Bool.not_false]
  obtain ⟨c, hc⟩ := Option.isSome_iff_exists.mp hsome
  have hload : load_data sheet = ⟨[], some c⟩ := by
    unfold load_data
    rw [hc]
    cases hrows : sheet.rows with
    | nil => exact absurd hrows hne
    | cons a l => rfl
  exact ⟨by rw [hload], c, List.mem_of_find?_eq_some hc, by rw [hload]⟩

/-- C4 witness: loading a non-empty sheet whose header lacks `Gram Emas`
yields an empty ledger and a schema error. -/
theorem C4_schema_error_witness :
    (load_data sheetC4).ledger = [] ∧
    ∃ c ∈ requiredCols, (load_data sheetC4).error = some c :=
  C4_schema_error sheetC4 (by decide) ⟨"Gram Emas", by decide, by decide⟩

/-- C5: the submit handler rejects a draft exactly when both the amount
and the gold grams are zero, and a rejected submit performs no store
append and leaves the cache slot untouched. -/
theorem C5_reject_zero_draft (writeOk : Bool) (d : Draft) (s : AppendState) :
    ((handleSubmit writeOk d s).1 = SubmitResult.rejected ↔ d.jumlah = 0 ∧ d.gramEmas = 0) ∧
    (d.jumlah = 0 ∧ d.gramEmas = 0 → handleSubmit writeOk d s = (SubmitResult.rejected, s)) := by
  unfold handleSubmit
  by_cases h : d.jumlah = 0 ∧ d.gramEmas = 0
  · simp [h]
  · simp [h]
    cases writeOk <;> simp

/-- C5 witness: a zero-amount zero-gram draft is rejected with the state
unchanged. -/
theorem C5_reject_zero_draft_witness :
    handleSubmit true ⟨0, "Pemasukan", "w", 0, 0⟩ ⟨[], true⟩ =
      (SubmitResult.rejected, ⟨[], true⟩) :=
  (C5_reject_zero_draft true ⟨0, "Pemasukan", "w", 0, 0⟩ ⟨[], true⟩).2 ⟨rfl, rfl⟩

/-- C6: starting from a valid cache slot, the submit handler leaves the
slot invalidated exactly when the store append succeeds on an accepted
draft; a successful write appends exactly the serialized row, and a
failed write surfaces a write error with the whole state (store and
cache) untouched and no retry. -/
theorem C6_cache_invalidation (writeOk : Bool) (d : Draft) (s : AppendState)
    (hc : s.cacheValid = true) :
    ((handleSubmit writeOk d s).2.cacheValid = false ↔
      writeOk = true ∧ ¬(d.jumlah = 0 ∧ d.gramEmas = 0)) ∧
    (writeOk = true → ¬(d.jumlah = 0 ∧ d.gramEmas = 0) →
      (handleSubmit writeOk d s).2.store = s.store ++ [serializeDraft d]) ∧
    (writeOk = false → ¬(d.jumlah = 0 ∧ d.gramEmas = 0) →
      (handleSubmit writeOk d s).1 = SubmitResult.writeError ∧
        (handleSubmit writeOk d s).2 = s) := by
  unfold handleSubmit
  by_cases h : d.jumlah = 0 ∧ d.gramEmas = 0
  · simp [h, hc]
  · simp [h]
    cases writeOk <;> simp [hc]

/-- C6 witness: a failed write on an accepted draft reports a write
error and leaves the state untouched. -/
theorem C6_cache_invalidation_witness :
    (handleSubmit false ⟨0, "Pemasukan", "w", 5, 0⟩ ⟨[], true⟩).1 = SubmitResult.writeError ∧
      (handleSubmit false ⟨0, "Pemasukan", "w", 5, 0⟩ ⟨[], true⟩).2 = ⟨[], true⟩ :=
  (C6_cache_invalidation false ⟨0, "Pemasukan", "w", 5, 0⟩ ⟨[], true⟩ rfl).2.2 rfl
    (fun h => absurd h.1 (by norm_num))

/-- C7: estimated total wealth is net cash flow plus stock savings plus
gold grams valued at the fixed Rp 900000 per gram; on the Scenario A
ledger (one income row of Rp 5000000, zero grams) the total income, the
net cash flow and the estimated wealth all equal 5000000. -/
theorem C7_wealth_formula :
    (∀ df : List Row, total_kekayaan df =
      (total_pemasukan df - total_pengeluaran df) + total_tabungan_saham df +
        total_gram_emas df * 900000) ∧
    total_pemasukan (load_data scenarioA).ledger = 5000000 ∧
    saldo_cashflow (load_data scenarioA).ledger = 5000000 ∧
    total_kekayaan (load_data scenarioA).ledger = 5000000 := by
  have hload : (load_data scenarioA).ledger =
      [⟨some 20240101, "Pemasukan", "Salary", 5000000, 0⟩] := rfl
  refine ⟨fun df => rfl, ?_, ?_, ?_⟩ <;>
    simp [hload, total_pemasukan, total_pengeluaran, total_tabungan_saham, total_gram_emas,
      saldo_cashflow, total_kekayaan, pemasukan, pengeluaran, investasiSaham, beliEmasRp]

/-- C8: an empty raw row sequence loads to an empty ledger with no error
reported, whatever the header columns are. -/
theorem C8_empty_rows (cols : List String) : load_data ⟨cols, []⟩ = ⟨[], none⟩ := rfl

/-- C10: the form input boundary forces the gold grams of a draft to 0
whenever the selected transaction type is not `Beli Emas`. -/
theorem C10_gold_requires_gold_type (tanggal : ℤ) (tipe : String) (jumlah gramInput : ℚ)
    (keterangan : String) (h : tipe ≠ "Beli Emas") :
    (mkDraft tanggal tipe jumlah gramInput keterangan).gramEmas = 0 := by
  simp [mkDraft, h]

/-- C10 witness: a non-gold draft built from a non-zero gram input still
carries zero grams. -/
theorem C10_gold_requires_gold_type_witness :
    (mkDraft 0 "Pemasukan" 5 3 "w").gramEmas = 0 :=
  C10_gold_requires_gold_type 0 "Pemasukan" 5 3 "w" (by decide)

/-! Machinery for the cumulative-trend claim. -/

/-- Whether a row has a parseable date (its `Tanggal` is not NaT). -/
def hasDate (r : Row) : Bool := r.tanggal.isSome

/-- Sum of the daily cashflow column over a list of rows. -/
def sumCF (l : List Row) : ℚ := (l.map cashflowHarian).sum

/-- Unfolding equation for `cumsumFrom` on a cons cell. -/
theorem cumsumFrom_cons (a : ℚ) (r : Row) (rs : List Row) :
    cumsumFrom a (r :: rs) =
      (r, a + cashflowHarian r) :: cumsumFrom (a + cashflowHarian r) rs := rfl

/-- A row that an undated row precedes in the date order is itself
undated. -/
theorem tanggal_none_of_rowLe {x y : Row} (hx : x.tanggal = none)
    (h : rowLe x y = true) : y.tanggal = none := by
  cases hy : y.tanggal with
  | none => rfl
  | some e =>
    rw [rowLe, hx, hy] at h
    simp [dateLeOpt] at h

/-- In a date-sorted frame the rows with a date form a prefix: the frame
is its dated rows followed by its undated rows. -/
theorem sorted_filter_decomp {s : List Row}
    (hs : s.Pairwise (fun a b => rowLe a b = true)) :
    s.filter hasDate ++ s.filter (fun r => !(hasDate r)) = s := by
  induction s with
  | nil => rfl
  | cons x xs ih =>
    rw [List.pairwise_cons] at hs
    obtain ⟨hx, hxs⟩ := hs
    by_cases hd : hasDate x = true
    · rw [List.filter_cons, if_pos hd, List.filter_cons, if_neg (by simp [hd]),
        List.cons_append, ih hxs]
    · have hdf : hasDate x = false := by
        revert hd
        cases hasDate x <;> simp
      have hxnone : x.tanggal = none := by
        cases hxt : x.tanggal with
        | none => rfl
        | some e => simp [hasDate, hxt] at hdf
      have hall : ∀ y ∈ xs, y.tanggal = none := fun y hy =>
        tanggal_none_of_rowLe hxnone (hx y hy)
      have hfilA : xs.filter hasDate = [] := by
        rw [List.filter_eq_nil_iff]
        intro y hy
        simp [hasDate, hall y hy]
      have hfilB : xs.filter (fun r => !(hasDate r)) = xs := by
        rw [List.filter_eq_self]
        intro y hy
        simp [hasDate, hall y hy]
      rw [List.filter_cons, if_neg hd, List.filter_cons, if_pos (by simp [hdf]),
        hfilA, hfilB, List.nil_append]

/-- Cumulative sums over an append split at the accumulated sum. -/
theorem cumsumFrom_append (a : ℚ) (l₁ l₂ : List Row) :
    cumsumFrom a (l₁ ++ l₂) = cumsumFrom a l₁ ++ cumsumFrom (a + sumCF l₁) l₂ := by
  induction l₁ generalizing a with
  | nil => simp [cumsumFrom, sumCF]
  | cons x xs ih =>
    have hsum : a + cashflowHarian x + sumCF xs = a + sumCF (x :: xs) := by
      simp only [sumCF, List.map_cons, List.sum_cons]
      ring
    rw [List.cons_append, cumsumFrom_cons, cumsumFrom_cons, ih, hsum, List.cons_append]

/-- The last cumulative value over a non-empty list is the total sum. -/
theorem cumsum_getLast (a : ℚ) (l : List Row) (h : l ≠ []) :
    ((cumsumFrom a l).map Prod.snd).getLast? = some (a + sumCF l) := by
  induction l generalizing a with
  | nil => exact absurd rfl h
  | cons x xs ih =>
    cases xs with
    | nil =>
      simp [cumsumFrom, sumCF]
    | cons y ys =>
      have hlast := ih (a := a + cashflowHarian x) (by simp)
      simp only [cumsumFrom, List.map_cons] at hlast ⊢
      rw [List.getLast?_cons_cons, hlast]
      simp only [sumCF, List.map_cons, List.sum_cons]
      ring_nf

/-- Over rows that all carry a date, the trend extraction keeps every
cumulative point. -/
theorem filterMap_cumsum_dated (a : ℚ) {l : List Row} (h : ∀ r ∈ l, r.tanggal.isSome = true) :
    (cumsumFrom a l).filterMap (fun p => (p.1.tanggal).map (fun d => (d, p.2))) =
      (cumsumFrom a l).map (fun p => (p.1.tanggal.getD 0, p.2)) := by
  induction l generalizing a with
  | nil => rfl
  | cons r rs ih =>
    obtain ⟨d, hd⟩ := Option.isSome_iff_exists.mp (h r (List.mem_cons_self r rs))
    rw [cumsumFrom_cons, List.map_cons,
      List.filterMap_cons_some (b := (d, a + cashflowHarian r)) (by simp [hd]),
      ih _ (fun s hs => h s (List.mem_cons_of_mem r hs))]
    simp [hd]

/-- Over rows with no date, the trend extraction drops every cumulative
point. -/
theorem filterMap_cumsum_undated (a : ℚ) {l : List Row} (h : ∀ r ∈ l, r.tanggal = none) :
    (cumsumFrom a l).filterMap (fun p => (p.1.tanggal).map (fun d => (d, p.2))) = [] := by
  induction l generalizing a with
  | nil => rfl
  | cons r rs ih =>
    rw [cumsumFrom_cons,
      List.filterMap_cons_none (by simp [h r (List.mem_cons_self r rs)])]
    exact ih _ (fun s hs => h s (List.mem_cons_of_mem r hs))

/-- The cashflow sum is income total minus expense total. -/
theorem sumCF_eq_saldo (l : List Row) : sumCF l = saldo_cashflow l := by
  induction l with
  | nil => simp [sumCF, saldo_cashflow, total_pemasukan, total_pengeluaran]
  | cons x xs ih =>
    simp only [sumCF, saldo_cashflow, total_pemasukan, total_pengeluaran, List.map_cons,
      List.sum_cons, cashflowHarian] at ih ⊢
    rw [ih]
    ring

/-- Over any date-sorted frame, the plotted trend is the cumulative sum
over the frame's dated prefix only. -/
theorem cumulativeTrendOn_eq {s : List Row}
    (hs : s.Pairwise (fun a b => rowLe a b = true)) :
    cumulativeTrendOn s =
      (cumsumFrom 0 (s.filter hasDate)).map (fun p => (p.1.tanggal.getD 0, p.2)) := by
  unfold cumulativeTrendOn df_trendOn
  conv_lhs => rw [← sorted_filter_decomp hs]
  rw [cumsumFrom_append, List.filterMap_append]
  rw [filterMap_cumsum_dated]
  · rw [filterMap_cumsum_undated, List.append_nil]
    intro r hr
    have h2 := (List.mem_filter.mp hr).2
    cases hrt : r.tanggal with
    | none => rfl
    | some e => simp [hasDate, hrt] at h2
  · intro r hr
    exact (List.mem_filter.mp hr).2

/-- Two rows with the same date, in ledger (load) order: first an income
of 100. -/
def rowTieA : Row := ⟨some 1, "Pemasukan", "a", 100, 0⟩

/-- The tied expense row (40) loaded second. -/
def rowTieB : Row := ⟨some 1, "Pengeluaran Harian", "b", 40, 0⟩

/-- The counterexample ledger with a date tie. -/
def dfTie : List Row := [rowTieA, rowTieB]

/-- C2 counterexample: on a ledger with two rows of equal date, the
reversed frame is also an admissible output of the program's sort
(pandas' default `kind=quicksort` gives no tie-order guarantee), and
under it the plotted trend differs from the tie-preserving sequence the
claim asserts, which is the trend of the frame in original ledger
order. -/
theorem C2_counterexample :
    IsSortValuesOutput dfTie [rowTieB, rowTieA] ∧
    cumulativeTrendOn [rowTieA, rowTieB] = [(1, 100), (1, 60)] ∧
    cumulativeTrendOn [rowTieB, rowTieA] ≠ [(1, 100), (1, 60)] := by
  refine ⟨⟨List.Perm.swap rowTieA rowTieB [], by decide⟩, ?_, ?_⟩
  · show cumulativeTrendOn [rowTieA, rowTieB] = [(1, 100), (1, 60)]
    simp [cumulativeTrendOn, df_trendOn, cumsumFrom, cashflowHarian, pemasukan,
      pengeluaran, rowTieA, rowTieB]
    norm_num
  · show cumulativeTrendOn [rowTieB, rowTieA] ≠ [(1, 100), (1, 60)]
    simp [cumulativeTrendOn, df_trendOn, cumsumFrom, cashflowHarian, pemasukan,
      pengeluaran, rowTieA, rowTieB]
    norm_num

/-- C2 (amended): for every frame the program's sort may return for the
ledger (any permutation of its rows with dates ascending and missing
dates last), the plotted trend is the running prefix sum of
(income - expense) over exactly the frame's valid-date rows; those rows
are a permutation of the ledger's valid-date rows and their dates are
non-decreasing along the trend; and the final trend value equals the net
cash flow of the ledger's valid-date rows. Order among rows of equal
date is not part of the program's guarantee. -/
theorem C2_amended_trend (df s : List Row) (hs : IsSortValuesOutput df s) :
    cumulativeTrendOn s =
      (cumsumFrom 0 (s.filter hasDate)).map (fun p => (p.1.tanggal.getD 0, p.2)) ∧
    (s.filter hasDate).Perm (df.filter hasDate) ∧
    (s.filter hasDate).Pairwise (fun a b => rowLe a b = true) ∧
    ((cumulativeTrendOn s).map Prod.snd).getLast? =
      (if df.filter hasDate = [] then none
       else some (saldo_cashflow (df.filter hasDate))) := by
  obtain ⟨hperm, hsort⟩ := hs
  have hpermf : (s.filter hasDate).Perm (df.filter hasDate) := hperm.filter hasDate
  refine ⟨cumulativeTrendOn_eq hsort, hpermf,
    List.Pairwise.sublist (List.filter_sublist s) hsort, ?_⟩
  rw [cumulativeTrendOn_eq hsort, List.map_map]
  have hcomp : (Prod.snd ∘ fun p : Row × ℚ => (p.1.tanggal.getD 0, p.2)) = Prod.snd := rfl
  rw [hcomp]
  by_cases hnil : df.filter hasDate = []
  · rw [if_pos hnil]
    have hs0 : s.filter hasDate = [] := by
      have hlen := hpermf.length_eq
      rw [hnil] at hlen
      exact List.length_eq_zero.mp hlen
    rw [hs0]
    rfl
  · rw [if_neg hnil]
    have hne : s.filter hasDate ≠ [] := by
      intro h0
      rw [h0] at hpermf
      exact hnil (List.Perm.eq_nil hpermf.symm)
    rw [cumsum_getLast 0 _ hne, zero_add]
    have hsum : sumCF (s.filter hasDate) = sumCF (df.filter hasDate) := by
      unfold sumCF
      exact (hpermf.map cashflowHarian).sum_eq
    rw [hsum, sumCF_eq_saldo]

/-- Rows of Scenario E in ledger (load) order: an expense of 100 dated
2024-02-01 loaded before an income of 500 dated 2024-01-01. -/
def dfC2 : List Row :=
  [⟨some 20240201, "Pengeluaran Harian", "e", 100, 0⟩,
   ⟨some 20240101, "Pemasukan", "i", 500, 0⟩]

/-- The unique admissible sorted frame for the Scenario E ledger (its
two dates are distinct). -/
def sortedC2 : List Row :=
  [⟨some 20240101, "Pemasukan", "i", 500, 0⟩,
   ⟨some 20240201, "Pengeluaran Harian", "e", 100, 0⟩]

/-- C2 witness: the amended trend theorem applied to the Scenario E
ledger and its sorted frame, the sort hypothesis discharged by
computation. -/
theorem C2_amended_trend_witness :
    cumulativeTrendOn sortedC2 =
      (cumsumFrom 0 (sortedC2.filter hasDate)).map (fun p => (p.1.tanggal.getD 0, p.2)) ∧
    ((cumulativeTrendOn sortedC2).map Prod.snd).getLast? =
      (if dfC2.filter hasDate = [] then none
       else some (saldo_cashflow (dfC2.filter hasDate))) :=
  ⟨(C2_amended_trend dfC2 sortedC2 ⟨by decide, by decide⟩).1,
   (C2_amended_trend dfC2 sortedC2 ⟨by decide, by decide⟩).2.2.2⟩

end FamilyFinance
